import Mathlib

set_option autoImplicit false

namespace Armeria

/-! Shallow embedding of the two Sphinx extensions of the repository:
`site/src/sphinx/_extensions/api.py` (the `api` / `apiplural` roles that turn
reference tokens into Javadoc hyperlinks) and
`site/src/sphinx/_extensions/parsed_literal_highlight.py` (syntax highlighting
for literal blocks with a `highlight-<language>` class).

Text is modelled as `List Char` (Python `str`); `s.data` converts a Lean
string literal.  Directory paths are lists of components
(`List (List Char)`), as obtained by splitting an absolute path on the
separator, and `os.path.relpath` is modelled on such component lists.
Reference tokens are inline role texts and therefore newline-free, so the
`re.fullmatch` patterns that use `.` (which does not match a newline) are
modelled as plain suffix tests. -/

/-- ASCII upper-case test: the `[A-Z]` character class of the regexes in
api.py. -/
def isUpperAZ (c : Char) : Bool := 'A' ≤ c && c ≤ 'Z'

/-- Python `str.replace('.', '/')`, character-wise. -/
def dotToSlash (c : Char) : Char := if c = '.' then '/' else c

/-- Python `str.replace('$', '.')`, character-wise. -/
def dolToDot (c : Char) : Char := if c = '$' then '.' else c

/-- Python `str.replace('.', '$')`, character-wise. -/
def dotToDollar (c : Char) : Char := if c = '.' then '$' else c

/-- Join path components with `/`, as `relpath(..).replace(os.sep, '/')`
produces: the relative path is rendered directly with `/` separators. -/
def joinSlash : List (List Char) → List Char
  | [] => []
  | [p] => p
  | p :: ps => p ++ '/' :: joinSlash ps

/-- Core of `os.path.relpath(path, start)` on component lists (both paths
absolute): drop the longest common prefix, then emit one `..` per remaining
`start` component followed by the remaining `path` components. -/
def relAux : List (List Char) → List (List Char) → List (List Char)
  | p :: ps, s :: ss =>
    if p = s then relAux ps ss
    else (s :: ss).map (fun _ => ("..").data) ++ p :: ps
  | ps, ss => ss.map (fun _ => ("..").data) ++ ps

/-- Model of `os.path.relpath(path, start)` for absolute paths, as components;
an empty result becomes `.` exactly as in `posixpath.relpath`. -/
def relpathComps (path start : List (List Char)) : List (List Char) :=
  match relAux path start with
  | [] => [(".").data]
  | r => r

/-- A Python dict from simple class name to Javadoc file path, as an
association list (`__javadoc_mappings__`). -/
abbrev Mapping := List (List Char × List Char)

/-- Dict lookup: `m[k]`, and `k in m` via `Option.isSome`. -/
def lookupJ : Mapping → List Char → Option (List Char)
  | [], _ => none
  | (k, v) :: rest, key => if k = key then some v else lookupJ rest key

/-- Dict assignment `m[k] = v`: overwrite the key when present, append
otherwise. -/
def dinsert : Mapping → List Char → List Char → Mapping
  | [], k, v => [(k, v)]
  | (k1, v1) :: rest, k, v =>
    if k1 = k then (k, v) :: rest else (k1, v1) :: dinsert rest k v

/-- One `os.walk` entry: a directory (absolute components) and the file names
found in it. -/
abbrev WalkEntry := List (List Char) × List (List Char)

/-- The filter of the Javadoc scan (api.py line 42): keep `basename` iff
`re.match(r'^[^A-Z]', basename)` fails — the first character is an ASCII
upper-case letter — and the name ends in `.html`. -/
def keepFile (b : List Char) : Bool :=
  (match b.head? with
   | some c => isUpperAZ c
   | none => false) && (".html").data.isSuffixOf b

/-- api.py line 47: `basename[:-5].replace('.', '$')`. -/
def simpleClassName (b : List Char) : List Char :=
  (b.take (b.length - 5)).map dotToDollar

/-- The scan in `visit_api_node` (api.py lines 41-50): walk the Javadoc
directory and map each kept file's simple class name to
`relpath(dirname, javadoc_dir).replace(os.sep, '/') + '/' + basename`. -/
def build_javadoc_mappings (jd : List (List Char)) (walk : List WalkEntry) : Mapping :=
  walk.foldl
    (fun m e =>
      e.2.foldl
        (fun m b =>
          if keepFile b then
            dinsert m (simpleClassName b) (joinSlash (relpathComps e.1 jd) ++ '/' :: b)
          else m)
        m)
    []

/-- The two attributes `visit_api_node` touches on the build environment:
`__javadoc_cache__` (only ever tested with `hasattr`) and
`__javadoc_mappings__` (only ever assigned). `none` models an absent
attribute. -/
structure JEnv where
  javadocCacheAttr : Option Unit
  javadocMappingsAttr : Option Mapping
deriving DecidableEq

/-- The cache logic at the top of `visit_api_node` (api.py lines 39-51): if
the attribute `__javadoc_cache__` is absent, run the directory scan and store
the result in `__javadoc_mappings__`; otherwise reuse `__javadoc_mappings__`.
The returned flag records whether the `os.walk` scan ran in this invocation. -/
def visitCacheStep (env : JEnv) (jd : List (List Char)) (walk : List WalkEntry) :
    JEnv × Bool :=
  if env.javadocCacheAttr.isNone then
    ({ env with javadocMappingsAttr := some (build_javadoc_mappings jd walk) }, true)
  else
    (env, false)

/-- api.py lines 53-58: strip a leading `@`, remembering whether it was
there. -/
def stripLead (t : List Char) : List Char × Bool :=
  match t with
  | '@' :: rest => (rest, true)
  | _ => (t, false)

/-- The package test `re.fullmatch(r'^[^A-Z$]+$', text)` (api.py line 62):
nonempty, no ASCII upper-case letter, no `$`. -/
def lowerNoDollar (t : List Char) : Bool :=
  !t.isEmpty && t.all (fun c => !isUpperAZ c && c != '$')

/-- Model of `re.sub(r'^.*\.', '', text)` (api.py line 68) for newline-free
text: the part after the last `.`, or the whole text when there is no dot. -/
def afterLastDot (t : List Char) : List Char :=
  (t.reverse.takeWhile (fun c => c != '.')).reverse

/-- The `ExtensionError` message of api.py line 72. -/
def missingMsg (t : List Char) : List Char :=
  ("Cannot find a class from Javadoc: ").data ++ t

/-- api.py lines 60-75: classify the marker-free token and produce
`(display text, destination path)`, or fail with the `ExtensionError`
message. -/
def resolveToken (m : Mapping) (text : List Char) :
    Except (List Char) (List Char × List Char) :=
  if '.' ∈ text then
    if lowerNoDollar text then
      .ok (text, text.map dotToSlash ++ ("/package-summary.html").data)
    else
      .ok ((afterLastDot text).map dolToDot,
           (text.map dotToSlash).map dolToDot ++ (".html").data)
  else
    match lookupJ m text with
    | none => .error (missingMsg text)
    | some p => .ok (text.map dolToDot, p)

/-- Model of `re.fullmatch(r'^.*(ch|s|sh|x|z)$', text)` (api.py line 90) for
newline-free text: does the text end in one of the five suffixes? -/
def pluralTest (t : List Char) : Bool :=
  ("ch").data.isSuffixOf t || ("s").data.isSuffixOf t || ("sh").data.isSuffixOf t
    || ("x").data.isSuffixOf t || ("z").data.isSuffixOf t

/-- api.py lines 90-93: the suffix appended for `apiplural`. -/
def pluralSuffix (t : List Char) : List Char :=
  if pluralTest t then ("es").data else ("s").data

/-- One string appended to `self.body`: either a `self.starttag(...)` call
(whose attribute rendering is delegated to docutils and kept abstract here)
or a literal string. -/
inductive Frag where
  | tagOpen (elem cls : List Char) (href : Option (List Char))
  | raw (s : List Char)
deriving DecidableEq

/-- The outcome of `visit_api_node` after the mapping is in hand: the display
text, the final hyperlink URI, the optional plural suffix, and the body
fragments emitted, in order. -/
structure ApiOut where
  display : List Char
  uri : List Char
  pluralSuf : Option (List Char)
  frags : List Frag
deriving DecidableEq

/-- api.py lines 79-80: prepend the `@` back onto the display text if it was
stripped. -/
def atText (isAt : Bool) (t : List Char) : List Char :=
  if isAt then '@' :: t else t

/-- api.py line 77: prefix the destination with
`relpath(javadoc_dir, outdir).replace(os.sep, '/') + '/'`. -/
def uriFull (jd od : List (List Char)) (dest : List Char) : List Char :=
  joinSlash (relpathComps jd od) ++ '/' :: dest

/-- The plural suffix actually emitted: present exactly when `is_plural`. -/
def sufOpt (plural : Bool) (t : List Char) : Option (List Char) :=
  if plural then some (pluralSuffix t) else none

/-- api.py lines 83-95: the strings appended to `self.body`, in order. -/
def apiFrags (uri text : List Char) (suf : Option (List Char)) : List Frag :=
  [Frag.tagOpen (("code").data) (("docutils literal javadoc").data) none,
   Frag.tagOpen (("a").data) (("reference external javadoc").data) (some uri),
   Frag.raw text, Frag.raw (("</a>").data)]
  ++ (match suf with
      | some s =>
        [Frag.tagOpen (("span").data) (("plural-suffix").data) none,
         Frag.raw s, Frag.raw (("</span>").data)]
      | none => [])
  ++ [Frag.raw (("</code>").data)]

/-- Assemble the output of a successful resolution `r = (display, dest)`. -/
def mkApiOut (jd od : List (List Char)) (isAt plural : Bool)
    (r : List Char × List Char) : ApiOut :=
  { display := atText isAt r.1
    uri := uriFull jd od r.2
    pluralSuf := sufOpt plural (atText isAt r.1)
    frags := apiFrags (uriFull jd od r.2) (atText isAt r.1)
               (sufOpt plural (atText isAt r.1)) }

/-- api.py lines 52-97, after the cached mapping is in hand: strip the `@`
marker, resolve the token, prefix the URI, restore the marker on the display
text and emit the body fragments.  An `ExtensionError` propagates before
anything is appended to the body, so the error case carries no fragments. -/
def visit_api_node (m : Mapping) (jd od : List (List Char)) (plural : Bool)
    (tok : List Char) : Except (List Char) ApiOut :=
  match resolveToken m (stripLead tok).1 with
  | .error e => .error e
  | .ok r => .ok (mkApiOut jd od (stripLead tok).2 plural r)

/-- The C2 claim's own words, kept for comparison with the code: the prefix is
said to be "the relative path from the reference-output directory to the
current output directory", i.e. `relpath(outdir, javadoc_dir)`. -/
def specC2Uri (jd od : List (List Char)) (dest : List Char) : List Char :=
  joinSlash (relpathComps od jd) ++ '/' :: dest

/-- Python `str.strip()`: drop leading and trailing whitespace. -/
def trimWS (t : List Char) : List Char :=
  ((t.dropWhile Char.isWhitespace).reverse.dropWhile Char.isWhitespace).reverse

/-- The loop of parsed_literal_highlight.py lines 8-11: the language label
comes from the first class starting with `highlight-` (`c[10:].strip()`),
and is `''` when no class matches. -/
def findLang : List (List Char) → List Char
  | [] => []
  | c :: rest =>
    if ("highlight-").data.isPrefixOf c then trimWS (c.drop 10) else findLang rest

/-- Result of `parsed_literal_visit_literal_block`: either the raw block text
is handed to `self.highlighter.highlight_block(raw, lang)` and the node
skipped, or the unchanged node goes to the default `next_visitor` path. -/
inductive LBResult where
  | highlighted (raw lang : List Char)
  | defaultPath
deriving DecidableEq

/-- parsed_literal_highlight.py lines 5-21: compute the label, then either
fall through to the default visitor (`len(lang) == 0`) or delegate to the
highlighter and skip the node. -/
def parsed_literal_visit_literal_block (classes : List (List Char))
    (raw : List Char) : LBResult :=
  if (findLang classes).length = 0 then .defaultPath
  else .highlighted raw (findLang classes)

/-- The prefix test of the highlighter loop, as a predicate on one class. -/
def hlPred (c : List Char) : Bool := (("highlight-").data).isPrefixOf c

/-- The output formats named in `_NODE_VISITORS` (api.py lines 109-115). -/
inductive OutFormat where
  | html | latex | man | texinfo | text
deriving DecidableEq

/-- Which visitor `_NODE_VISITORS` installs for each format. -/
inductive VisitorKind where
  | apiHtml | unsupported
deriving DecidableEq

/-- The dispatch table `_NODE_VISITORS`. -/
def nodeVisitors : OutFormat → VisitorKind
  | .html => .apiHtml
  | .latex => .unsupported
  | .man => .unsupported
  | .texinfo => .unsupported
  | .text => .unsupported

/-- How a node visitor ends: `raise nodes.SkipNode` (node skipped, build goes
on) or a fatal error aborting the build. -/
inductive VisitEnd where
  | skipped
  | fatal (msg : List Char)
deriving DecidableEq

/-- Translator state seen by the non-HTML visitors: emitted body fragments
and accumulated (non-fatal) builder warnings. -/
structure TransState where
  body : List Frag
  warnings : List (List Char)
deriving DecidableEq

/-- api.py lines 104-106: `self.builder.warn(...)` then `raise SkipNode`. -/
def unsupported_visit_api (st : TransState) : TransState × VisitEnd :=
  ({ st with
     warnings := st.warnings ++ [("api: unsupported output format (node skipped)").data] },
   .skipped)

/-- A sample mapping used in the concrete checks of the plural rule. -/
def exMapPlural : Mapping :=
  [((("Class").data), (("x/Class.html").data)),
   ((("Box").data), (("x/Box.html").data)),
   ((("Bean").data), (("x/Bean.html").data))]

/-- The output of `visit_api_node` for `Class` with the plural flag, used by
a concrete check. -/
def exOutClass : ApiOut :=
  match visit_api_node exMapPlural [("o").data] [("o").data] true (("Class").data) with
  | .ok o => o
  | .error _ => ⟨[], [], none, []⟩

/-! Helper lemmas. -/

theorem lowerNoDollar_eq_false_of_mem {t : List Char} {c : Char}
    (hc : c ∈ t) (h : isUpperAZ c = true ∨ c = '$') : lowerNoDollar t = false := by
  unfold lowerNoDollar
  have hall : t.all (fun c => !isUpperAZ c && c != '$') = false := by
    cases hb : t.all (fun c => !isUpperAZ c && c != '$') with
    | false => rfl
    | true =>
      have hmem := List.all_eq_true.mp hb c hc
      rcases h with h | h <;> simp [h] at hmem
  simp [hall]

theorem lowerNoDollar_eq_true {t : List Char} (hne : t ≠ [])
    (h : ∀ c ∈ t, isUpperAZ c = false ∧ c ≠ '$') : lowerNoDollar t = true := by
  unfold lowerNoDollar
  have hall : t.all (fun c => !isUpperAZ c && c != '$') = true :=
    List.all_eq_true.mpr (fun c hc => by
      obtain ⟨h1, h2⟩ := h c hc
      simp [h1, h2])
  cases t with
  | nil => exact absurd rfl hne
  | cons a l => simp only [hall, List.isEmpty_cons, Bool.not_false, Bool.and_self]

/-! Claim theorems. -/

/-- C1 (code bug): `visit_api_node` tests `hasattr(env, '__javadoc_cache__')`
but only ever assigns `env.__javadoc_mappings__`, so the cache attribute is
never set and the Javadoc directory is rescanned by `os.walk` on every
invocation.  Starting from a fresh session environment, a second invocation
(on the environment produced by the first) runs the scan again, and the cache
attribute is still absent afterwards — contradicting the claim that later
invocations in the same session reuse the stored mapping without rescanning. -/
theorem c1_rescans_on_second_visit (jd : List (List Char)) (walk : List WalkEntry) :
    (visitCacheStep (visitCacheStep ⟨none, none⟩ jd walk).1 jd walk).2 = true ∧
      (visitCacheStep (visitCacheStep ⟨none, none⟩ jd walk).1 jd walk).1.javadocCacheAttr
        = none := by
  exact ⟨rfl, rfl⟩

/-- C3: a token with no dot (after stripping a leading `@`) whose marker-free
form is absent from the mapping makes `visit_api_node` fail with the
`ExtensionError` message, which contains the missing name; the error carries
no body fragments, so no markup is emitted for the node. -/
theorem c3_missing_simple_name_error (m : Mapping) (jd od : List (List Char))
    (plural : Bool) (tok : List Char)
    (hdot : '.' ∉ (stripLead tok).1)
    (habs : lookupJ m (stripLead tok).1 = none) :
    visit_api_node m jd od plural tok = .error (missingMsg (stripLead tok).1) ∧
      (stripLead tok).1 <:+: missingMsg (stripLead tok).1 := by
  constructor
  · unfold visit_api_node resolveToken
    simp [hdot, habs]
  · exact ⟨("Cannot find a class from Javadoc: ").data, [], by simp [missingMsg]⟩

theorem c3_witness :
    visit_api_node [] [("o").data] [("o").data] false (("Missing").data) =
        .error (missingMsg (("Missing").data)) ∧
      (("Missing").data) <:+: missingMsg (("Missing").data) := by
  exact c3_missing_simple_name_error [] [("o").data] [("o").data] false
    (("Missing").data) (by decide) rfl

/-- C4: a dotted token (the marker-free form) containing an upper-case letter
or a `$` resolves as a fully-qualified class name: the destination is the
token with `.` replaced by `/` and `$` by `.`, suffixed `.html`, and the
display text is the part after the last `.` with `$` rendered as `.`. -/
theorem c4_dotted_class_resolution (m : Mapping) (t : List Char)
    (hdot : '.' ∈ t) (hup : ∃ c ∈ t, isUpperAZ c = true ∨ c = '$') :
    resolveToken m t =
      .ok ((afterLastDot t).map dolToDot,
           (t.map dotToSlash).map dolToDot ++ (".html").data) := by
  obtain ⟨c, hc, hor⟩ := hup
  unfold resolveToken
  simp [hdot, lowerNoDollar_eq_false_of_mem hc hor]

theorem c4_witness :
    resolveToken [] (("com.example.Foo$Bar").data) =
      .ok ((("Foo.Bar").data), (("com/example/Foo.Bar.html").data)) := by
  exact c4_dotted_class_resolution [] (("com.example.Foo$Bar").data)
    (by decide) ⟨'F', by decide, Or.inl (by decide)⟩

/-- C5: a dotted token (the marker-free form) with no upper-case letter and
no `$` resolves as a package path: the destination is the token with `.`
replaced by `/` followed by `/package-summary.html`, and the display text is
the whole token. -/
theorem c5_dotted_package_resolution (m : Mapping) (t : List Char)
    (hdot : '.' ∈ t) (hlow : ∀ c ∈ t, isUpperAZ c = false ∧ c ≠ '$') :
    resolveToken m t =
      .ok (t, t.map dotToSlash ++ ("/package-summary.html").data) := by
  have hne : t ≠ [] := by
    intro h
    subst h
    exact (List.not_mem_nil '.') hdot
  unfold resolveToken
  simp [hdot, lowerNoDollar_eq_true hne hlow]

theorem c5_witness :
    resolveToken [] (("com.linecorp.armeria").data) =
      .ok ((("com.linecorp.armeria").data),
           (("com/linecorp/armeria/package-summary.html").data)) := by
  exact c5_dotted_package_resolution [] (("com.linecorp.armeria").data)
    (by decide) (by decide)

/-- C9: every non-HTML format in the dispatch table (latex, man, texinfo,
text) is wired to `unsupported_visit_api`, which appends one non-fatal
warning, leaves the body untouched (no link emitted), and ends with
`SkipNode` rather than a fatal error, so the build goes on. -/
theorem c9_unsupported_formats_skip (fmt : OutFormat) (st : TransState)
    (h : fmt = .latex ∨ fmt = .man ∨ fmt = .texinfo ∨ fmt = .text) :
    nodeVisitors fmt = .unsupported ∧
      (unsupported_visit_api st).2 = .skipped ∧
      (unsupported_visit_api st).1.body = st.body ∧
      (unsupported_visit_api st).1.warnings =
        st.warnings ++ [("api: unsupported output format (node skipped)").data] := by
  refine ⟨?_, rfl, rfl, rfl⟩
  rcases h with h | h | h | h <;> subst h <;> rfl

theorem visit_pluralSuf (m : Mapping) (jd od : List (List Char)) (tok : List Char)
    (out : ApiOut) (h : visit_api_node m jd od true tok = .ok out) :
    out.pluralSuf = some (pluralSuffix out.display) := by
  unfold visit_api_node at h
  cases hr : resolveToken m (stripLead tok).1 with
  | error e => rw [hr] at h; exact absurd h (by simp)
  | ok r =>
    rw [hr] at h
    simp only [Except.ok.injEq] at h
    subst h
    rfl

theorem pluralTest_iff (t : List Char) :
    pluralTest t = true ↔
      (("ch").data <:+ t ∨ ("s").data <:+ t ∨ ("sh").data <:+ t
        ∨ ("x").data <:+ t ∨ ("z").data <:+ t) := by
  simp only [pluralTest, Bool.or_eq_true, List.isSuffixOf_iff_suffix]
  tauto

theorem pluralSuffix_es_iff (t : List Char) :
    pluralSuffix t = ("es").data ↔ pluralTest t = true := by
  have hne : ("s").data ≠ ("es").data := by decide
  unfold pluralSuffix
  cases h : pluralTest t with
  | true => simp
  | false => simp [hne]

theorem pluralSuffix_s_iff (t : List Char) :
    pluralSuffix t = ("s").data ↔ pluralTest t = false := by
  have hne : ("es").data ≠ ("s").data := by decide
  unfold pluralSuffix
  cases h : pluralTest t with
  | true => simp [hne]
  | false => simp

theorem findLang_eq_none (classes : List (List Char))
    (h : classes.find? hlPred = none) : findLang classes = [] := by
  induction classes with
  | nil => rfl
  | cons a l ih =>
    cases hp : hlPred a with
    | true =>
      rw [List.find?_cons_of_pos l hp] at h
      simp at h
    | false =>
      rw [List.find?_cons_of_neg l (by simp [hp])] at h
      have h2 : (("highlight-").data).isPrefixOf a = false := hp
      simp only [findLang, h2, Bool.false_eq_true, if_false]
      exact ih h

theorem findLang_eq_some (classes : List (List Char)) (c : List Char)
    (h : classes.find? hlPred = some c) : findLang classes = trimWS (c.drop 10) := by
  induction classes with
  | nil => simp at h
  | cons a l ih =>
    cases hp : hlPred a with
    | true =>
      rw [List.find?_cons_of_pos l hp] at h
      simp only [Option.some.injEq] at h
      subst h
      have h2 : (("highlight-").data).isPrefixOf a = true := hp
      simp only [findLang, h2, if_true]
    | false =>
      rw [List.find?_cons_of_neg l (by simp [hp])] at h
      have h2 : (("highlight-").data).isPrefixOf a = false := hp
      simp only [findLang, h2, Bool.false_eq_true, if_false]
      exact ih h

/-- C2 counterexample: with reference-output directory `/out/apidocs` and
current output directory `/out`, the code prefixes
`relpath(javadoc_dir, outdir)` = `apidocs`, whereas the claim's words — "the
relative path from the reference-output directory to the current output
directory" — denote `relpath(outdir, javadoc_dir)` = `..`; the two URIs
differ. -/
theorem c2_counterexample :
    (visit_api_node [((("Foo").data), (("Foo.html").data))]
        [("out").data, ("apidocs").data] [("out").data] false (("Foo").data)).map
        ApiOut.uri
      = .ok (("apidocs/Foo.html").data) ∧
    specC2Uri [("out").data, ("apidocs").data] [("out").data] (("Foo.html").data)
      = ("../Foo.html").data ∧
    (("apidocs/Foo.html").data : List Char) ≠ ("../Foo.html").data := by
  refine ⟨rfl, rfl, ?_⟩
  decide

/-- C2 (amended): the final URI equals the relative path from the current
output directory to the reference-output directory, followed by `/`, followed
by the per-token destination; and for a marker-free simple name the
destination is exactly the mapped file path, so the URI ends in it. -/
theorem c2_amended_uri_shape (m : Mapping) (jd od : List (List Char))
    (plural : Bool) (tok disp dest : List Char)
    (h : resolveToken m (stripLead tok).1 = .ok (disp, dest)) :
    ∃ out, visit_api_node m jd od plural tok = .ok out ∧
      out.uri = joinSlash (relpathComps jd od) ++ '/' :: dest ∧
      dest <:+ out.uri ∧
      ('.' ∉ (stripLead tok).1 → lookupJ m (stripLead tok).1 = some dest) := by
  refine ⟨mkApiOut jd od (stripLead tok).2 plural (disp, dest), ?_, rfl, ?_, ?_⟩
  · unfold visit_api_node
    rw [h]
  · exact ⟨joinSlash (relpathComps jd od) ++ ['/'], by simp [mkApiOut, uriFull]⟩
  · intro hdot
    unfold resolveToken at h
    rw [if_neg hdot] at h
    cases hl : lookupJ m (stripLead tok).1 with
    | none => rw [hl] at h; exact absurd h (by simp)
    | some p =>
      rw [hl] at h
      simp only [Except.ok.injEq, Prod.mk.injEq] at h
      rw [h.2]

theorem c2_amended_witness :
    ∃ out, visit_api_node [((("Foo").data), (("Foo.html").data))]
        [("out").data, ("apidocs").data] [("out").data] false (("Foo").data) = .ok out ∧
      out.uri = joinSlash (relpathComps [("out").data, ("apidocs").data] [("out").data])
          ++ '/' :: (("Foo.html").data) ∧
      (("Foo.html").data) <:+ out.uri ∧
      ('.' ∉ (stripLead (("Foo").data)).1 →
        lookupJ [((("Foo").data), (("Foo.html").data))] (stripLead (("Foo").data)).1
          = some (("Foo.html").data)) := by
  exact c2_amended_uri_shape [((("Foo").data), (("Foo.html").data))]
    [("out").data, ("apidocs").data] [("out").data] false (("Foo").data)
    (("Foo").data) (("Foo.html").data) rfl

/-- C6: whenever `visit_api_node` runs with the plural flag set, the emitted
suffix is `es` exactly when the final display text ends in `ch`, `s`, `sh`,
`x` or `z`, and `s` otherwise; concretely `Class`, `Box` and `Bean` render as
`Classes`, `Boxes` and `Beans`. -/
theorem c6_plural_suffix :
    (∀ (m : Mapping) (jd od : List (List Char)) (tok : List Char) (out : ApiOut),
      visit_api_node m jd od true tok = .ok out →
        ((out.pluralSuf = some (("es").data) ↔
          (("ch").data <:+ out.display ∨ ("s").data <:+ out.display
            ∨ ("sh").data <:+ out.display ∨ ("x").data <:+ out.display
            ∨ ("z").data <:+ out.display)) ∧
         (out.pluralSuf = some (("s").data) ↔
          ¬(("ch").data <:+ out.display ∨ ("s").data <:+ out.display
            ∨ ("sh").data <:+ out.display ∨ ("x").data <:+ out.display
            ∨ ("z").data <:+ out.display)))) ∧
    (visit_api_node exMapPlural [("o").data] [("o").data] true (("Class").data)).map
        (fun o => o.display ++ o.pluralSuf.getD []) = .ok (("Classes").data) ∧
    (visit_api_node exMapPlural [("o").data] [("o").data] true (("Box").data)).map
        (fun o => o.display ++ o.pluralSuf.getD []) = .ok (("Boxes").data) ∧
    (visit_api_node exMapPlural [("o").data] [("o").data] true (("Bean").data)).map
        (fun o => o.display ++ o.pluralSuf.getD []) = .ok (("Beans").data) := by
  refine ⟨?_, rfl, rfl, rfl⟩
  intro m jd od tok out h
  have hps : out.pluralSuf = some (pluralSuffix out.display) :=
    visit_pluralSuf m jd od tok out h
  rw [hps]
  simp only [Option.some.injEq]
  constructor
  · rw [pluralSuffix_es_iff, pluralTest_iff]
  · rw [pluralSuffix_s_iff, Bool.eq_false_iff]
    exact not_congr (pluralTest_iff out.display)

theorem c6_witness :
    (exOutClass.pluralSuf = some (("es").data) ↔
      (("ch").data <:+ exOutClass.display ∨ ("s").data <:+ exOutClass.display
        ∨ ("sh").data <:+ exOutClass.display ∨ ("x").data <:+ exOutClass.display
        ∨ ("z").data <:+ exOutClass.display)) ∧
    (exOutClass.pluralSuf = some (("s").data) ↔
      ¬(("ch").data <:+ exOutClass.display ∨ ("s").data <:+ exOutClass.display
        ∨ ("sh").data <:+ exOutClass.display ∨ ("x").data <:+ exOutClass.display
        ∨ ("z").data <:+ exOutClass.display)) := by
  exact c6_plural_suffix.1 exMapPlural [("o").data] [("o").data] (("Class").data)
    exOutClass rfl

/-- C7: a token beginning with `@` round-trips the marker: classification and
lookup happen on the marker-free token, the display text gets the `@` back,
the URI is built from the marker-free token's destination; concretely
`@Override` is looked up under `Override` and displays as `@Override`. -/
theorem c7_marker_roundtrip (m : Mapping) (jd od : List (List Char))
    (plural : Bool) (name disp dest : List Char)
    (h : resolveToken m name = .ok (disp, dest)) :
    (visit_api_node m jd od plural ('@' :: name) =
        .ok (mkApiOut jd od true plural (disp, dest)) ∧
      (mkApiOut jd od true plural (disp, dest)).display = '@' :: disp ∧
      (mkApiOut jd od true plural (disp, dest)).uri
        = joinSlash (relpathComps jd od) ++ '/' :: dest) ∧
    (visit_api_node [((("Override").data), (("java/lang/Override.html").data))]
        [("o").data] [("o").data] false (("@Override").data)).map ApiOut.display
      = .ok (("@Override").data) := by
  refine ⟨⟨?_, rfl, rfl⟩, rfl⟩
  have h2 : resolveToken m (stripLead ('@' :: name)).1 = .ok (disp, dest) := h
  unfold visit_api_node
  rw [h2]
  rfl

theorem c7_witness :
    (visit_api_node [((("Override").data), (("java/lang/Override.html").data))]
        [("o").data] [("o").data] false
        ('@' :: (("Override").data)) =
        .ok (mkApiOut [("o").data] [("o").data] true false
          ((("Override").data), (("java/lang/Override.html").data))) ∧
      (mkApiOut [("o").data] [("o").data] true false
          ((("Override").data), (("java/lang/Override.html").data))).display
        = '@' :: (("Override").data) ∧
      (mkApiOut [("o").data] [("o").data] true false
          ((("Override").data), (("java/lang/Override.html").data))).uri
        = joinSlash (relpathComps [("o").data] [("o").data])
            ++ '/' :: (("java/lang/Override.html").data)) ∧
    (visit_api_node [((("Override").data), (("java/lang/Override.html").data))]
        [("o").data] [("o").data] false (("@Override").data)).map ApiOut.display
      = .ok (("@Override").data) := by
  exact c7_marker_roundtrip [((("Override").data), (("java/lang/Override.html").data))]
    [("o").data] [("o").data] false (("Override").data) (("Override").data)
    (("java/lang/Override.html").data) rfl

/-- C8 counterexample: the class `highlight-` does start with the prefix
`highlight-`, yet the block is routed to the default rendering path rather
than handed to the highlighter, because the label left after the prefix is
empty. -/
theorem c8_counterexample :
    (("highlight-").data).isPrefixOf (("highlight-").data) = true ∧
      parsed_literal_visit_literal_block [("highlight-").data] (("x").data)
        = .defaultPath := by
  exact ⟨rfl, rfl⟩

/-- C8 (amended): if no class starts with `highlight-`, the block passes
unchanged to the default path; if some class does, the first such class
determines the label — the text after the 10-character prefix stripped of
surrounding whitespace (class `highlight-java` gives `java`) — and when that
label is non-empty the raw block text is handed to the highlighter with it;
an empty label also falls back to the default path. -/
theorem c8_amended_highlight_dispatch (classes : List (List Char)) (raw : List Char) :
    (classes.find? hlPred = none →
      parsed_literal_visit_literal_block classes raw = .defaultPath) ∧
    (∀ c, classes.find? hlPred = some c →
      (trimWS (c.drop 10) ≠ [] →
        parsed_literal_visit_literal_block classes raw
          = .highlighted raw (trimWS (c.drop 10))) ∧
      (trimWS (c.drop 10) = [] →
        parsed_literal_visit_literal_block classes raw = .defaultPath)) := by
  constructor
  · intro h
    unfold parsed_literal_visit_literal_block
    rw [findLang_eq_none classes h]
    rfl
  · intro c hc
    have hf := findLang_eq_some classes c hc
    constructor
    · intro hne
      unfold parsed_literal_visit_literal_block
      rw [hf]
      rw [if_neg (fun hz => hne (List.length_eq_zero.mp hz))]
    · intro he
      unfold parsed_literal_visit_literal_block
      rw [hf, he]
      rfl

theorem c8_amended_witness :
    parsed_literal_visit_literal_block [("highlight-java").data] (("print(1)").data)
      = .highlighted (("print(1)").data)
          (trimWS ((("highlight-java").data).drop 10)) := by
  exact ((c8_amended_highlight_dispatch [("highlight-java").data]
    (("print(1)").data)).2 (("highlight-java").data) rfl).1 (by decide)

/-- C10: the language label is taken from the first class in list order whose
name starts with `highlight-`; if that first match strips to an empty label,
the block goes to the default path even when a later class carries a
non-empty label (the pair `highlight-`, `highlight-java` still goes to the
default path). -/
theorem c10_first_match_empty_label (classes : List (List Char)) (raw : List Char) :
    (∀ c, classes.find? hlPred = some c → findLang classes = trimWS (c.drop 10)) ∧
    (∀ c, classes.find? hlPred = some c → trimWS (c.drop 10) = [] →
      parsed_literal_visit_literal_block classes raw = .defaultPath) ∧
    parsed_literal_visit_literal_block
        [("highlight-").data, ("highlight-java").data] raw = .defaultPath := by
  refine ⟨?_, ?_, rfl⟩
  · intro c hc
    exact findLang_eq_some classes c hc
  · intro c hc he
    have hf := findLang_eq_some classes c hc
    rw [he] at hf
    unfold parsed_literal_visit_literal_block
    rw [hf]
    rfl

theorem c10_witness :
    parsed_literal_visit_literal_block [("highlight- ").data] (("x").data)
      = .defaultPath := by
  exact (c10_first_match_empty_label [("highlight- ").data] (("x").data)).2.1
    (("highlight- ").data) rfl (by decide)

theorem c9_witness :
    nodeVisitors .latex = .unsupported ∧
      (unsupported_visit_api ⟨[], []⟩).2 = .skipped ∧
      (unsupported_visit_api ⟨[], []⟩).1.body = ([] : List Frag) ∧
      (unsupported_visit_api ⟨[], []⟩).1.warnings =
        [] ++ [("api: unsupported output format (node skipped)").data] := by
  exact c9_unsupported_formats_skip .latex ⟨[], []⟩ (Or.inl rfl)

end Armeria
